import Mathlib

/-!
Verification development for the Catoctin Mountain Park interactive map
repository: the geographic constants and routing component are embedded
from the source files, and the POI Data Cache / Mutation Coordinator
(whose implementation is described only by the design documents of the
repository) is modelled from the specification text.
-/

/-! ## Geographic constants, embedded from src/src/lib/mapConfig.ts -/

def CATOCTIN_CENTER : ℚ × ℚ := (-77.4558, 39.6323)

def CATOCTIN_DEFAULT_ZOOM : ℕ := 13

def CATOCTIN_BOUNDS : (ℚ × ℚ) × (ℚ × ℚ) := ((-77.55, 39.58), (-77.36, 39.69))

def OSM_TILE_URL : String := "https://tile.openstreetmap.org/\x7bz\x7d/\x7bx\x7d/\x7by\x7d.png"

/-! ## Routing component, embedded from the App component in the source
(file src/unnamed/part_000): three Route elements rendered unconditionally
inside a Routes block, with no ProtectedRoute or AdminRoute wrapper. -/

inductive Page
  | LoginPage
  | MapPage
  | AdminPage
deriving DecidableEq, Repr

structure RouteEntry where
  path : String
  element : Page
deriving DecidableEq, Repr

/-- Possible authentication states a render could occur under; the App
component of the source does not consult any of them. -/
inductive AuthState
  | anonymous
  | authenticated (is_admin : Bool)
deriving DecidableEq, Repr

/-- The routes registered by the App component.  The source renders the
three Route elements unconditionally, so the embedding ignores the
authentication state. -/
def App (_auth : AuthState) : List RouteEntry :=
  [{ path := "/", element := Page.LoginPage },
   { path := "/map", element := Page.MapPage },
   { path := "/admin", element := Page.AdminPage }]

/-! ## Data model of the core (Persistent Store record shapes), from the
schema in plan.md and the POI interface in the style guide. -/

inductive Difficulty
  | easy
  | moderate
  | hard
deriving DecidableEq, Repr

structure POI where
  id : ℕ
  name : String
  lat : ℚ
  lng : ℚ
  visited_date : String
  notes : Option String := none
  trail_name : Option String := none
  distance_miles : Option ℚ := none
  elevation_gain_ft : Option ℤ := none
  difficulty : Option Difficulty := none
deriving DecidableEq, Repr

structure POIPhoto where
  id : ℕ
  poi_id : ℕ
  storage_url : String
  caption : Option String := none
  is_hero : Bool := false
deriving DecidableEq, Repr

/-- Modelled from the spec: the whole observable state of the core — the
Persistent Store tables for POIs and photos, the Object Store contents
(binary paths), and the POI Data Cache (POI snapshot plus the photo
gallery of the POI currently on view), together with fresh-id counters
standing in for server-generated identifiers.  The implementation of the
cache and coordinator is absent from src/, so this state is built from
sections 2-4 of the specification. -/
structure State where
  pois : List POI
  poi_photos : List POIPhoto
  objectStore : List String
  cachePois : List POI
  cacheGallery : Option (ℕ × List POIPhoto)
  nextPoiId : ℕ
  nextPhotoId : ℕ
deriving DecidableEq, Repr

/-- The error taxonomy of section 7 of the specification. -/
inductive CoreError
  | ValidationFailed
  | WriteRejected
  | NotFound
  | PartialDeleteFailure
  | FetchFailed
deriving DecidableEq, Repr

/-- Network calls issued against the managed backend, recorded so that
claims about "before any network call" are statable. -/
inductive NetCall
  | selectPois
  | selectPhotos (poi_id : ℕ)
  | insertPoiRow
  | updatePoiRow (id : ℕ)
  | deletePoiRows (id : ℕ)
  | insertPhotoRow
  | deletePhotoRow (id : ℕ)
  | uploadBinary (path : String)
  | removeBinary (path : String)
deriving DecidableEq, Repr

/-- Result of one Mutation Coordinator operation: the network calls it
issued, the state afterwards, and the surfaced error, if any. -/
structure OpResult where
  calls : List NetCall
  state : State
  err : Option CoreError
deriving DecidableEq, Repr

/-! ## POI Data Cache operations (modelled from the spec, section 4.1). -/

/-- Modelled from the spec: load() fetches all POIs the caller is
authorized to see from the Persistent Store in one logical read, stores
them as the cache snapshot and returns the full authorized set.  The
single-tenant model has every stored POI visible to the caller. -/
def load (s : State) : State × List POI :=
  ({ s with cachePois := s.pois }, s.pois)

/-- Modelled from the spec: getAll() returns the current in-memory
snapshot of the cache. -/
def getAll (s : State) : List POI :=
  s.cachePois

/-- The photos of one POI as recorded in the Persistent Store. -/
def photosOf (poi_id : ℕ) (s : State) : List POIPhoto :=
  s.poi_photos.filter (fun ph => ph.poi_id == poi_id)

/-- Hero-first ordering of a photo list, as section 4.1 requires for
loadPhotos. -/
def heroFirst (l : List POIPhoto) : List POIPhoto :=
  l.filter (fun ph => ph.is_hero) ++ l.filter (fun ph => !ph.is_hero)

/-- Modelled from the spec: loadPhotos(poiId) fetches all photos of the
given POI on demand, ordered hero-first, and places them in the cache as
the gallery of the POI on view. -/
def loadPhotos (poi_id : ℕ) (s : State) : State × List POIPhoto :=
  let gallery := heroFirst (photosOf poi_id s)
  ({ s with cacheGallery := some (poi_id, gallery) }, gallery)

/-! ## Mutation Coordinator operations (modelled from the spec,
section 4.2). -/

/-- Form input for createPOI / updatePOI.  Coordinates and the visit date
arrive from form fields, so a non-numeric coordinate or an absent date is
modelled by none. -/
structure POIFields where
  name : String
  lat : Option ℚ
  lng : Option ℚ
  visited_date : Option String
  notes : Option String := none
  trail_name : Option String := none
  distance_miles : Option ℚ := none
  elevation_gain_ft : Option ℤ := none
  difficulty : Option Difficulty := none
deriving DecidableEq, Repr

/-- A coordinate pair lies within the park bounding box of
CATOCTIN_BOUNDS (stored as [southwest, northeast], each corner being
[lng, lat]). -/
def inBounds (lng lat : ℚ) : Bool :=
  decide (CATOCTIN_BOUNDS.1.1 ≤ lng) && decide (lng ≤ CATOCTIN_BOUNDS.2.1) &&
  decide (CATOCTIN_BOUNDS.1.2 ≤ lat) && decide (lat ≤ CATOCTIN_BOUNDS.2.2)

/-- The POI record built from validated fields and a fresh identifier. -/
def mkPOI (id : ℕ) (name : String) (lat lng : ℚ) (visited_date : String)
    (f : POIFields) : POI :=
  { id := id, name := name, lat := lat, lng := lng,
    visited_date := visited_date, notes := f.notes,
    trail_name := f.trail_name, distance_miles := f.distance_miles,
    elevation_gain_ft := f.elevation_gain_ft, difficulty := f.difficulty }

/-- Modelled from the spec: createPOI(fields) validates required fields
locally (name non-empty, coordinates numeric and within the park bounding
region, visit date present) before submission; on success it inserts the
new record into the Persistent Store and appends it to the cache
snapshot; it fails with ValidationFailed before any network call if the
local checks fail. -/
def createPOI (f : POIFields) (s : State) : OpResult :=
  match f.lat, f.lng, f.visited_date with
  | some la, some ln, some d =>
      if f.name != "" && inBounds ln la then
        let p := mkPOI s.nextPoiId f.name la ln d f
        { calls := [NetCall.insertPoiRow],
          state := { s with pois := s.pois ++ [p],
                            cachePois := s.cachePois ++ [p],
                            nextPoiId := s.nextPoiId + 1 },
          err := none }
      else
        { calls := [], state := s, err := some CoreError.ValidationFailed }
  | _, _, _ => { calls := [], state := s, err := some CoreError.ValidationFailed }

/-- Modelled from the spec: updatePOI(id, fields) performs the same local
validation, replaces the matching cache entry in place on success, and
fails with NotFound if the identifier no longer exists server-side. -/
def updatePOI (id : ℕ) (f : POIFields) (s : State) : OpResult :=
  match f.lat, f.lng, f.visited_date with
  | some la, some ln, some d =>
      if f.name != "" && inBounds ln la then
        if s.pois.any (fun p => p.id == id) then
          let upd := fun (p : POI) =>
            if p.id == id then mkPOI id f.name la ln d f else p
          { calls := [NetCall.updatePoiRow id],
            state := { s with pois := s.pois.map upd,
                              cachePois := s.cachePois.map upd },
            err := none }
        else
          { calls := [NetCall.updatePoiRow id], state := s,
            err := some CoreError.NotFound }
      else
        { calls := [], state := s, err := some CoreError.ValidationFailed }
  | _, _, _ => { calls := [], state := s, err := some CoreError.ValidationFailed }

/-- Modelled from the spec: deletePOI(id) removes the POI and all its
photos from the Persistent Store and Object Store and removes them from
the cache snapshot, as one logical cascading operation. -/
def deletePOI (id : ℕ) (s : State) : OpResult :=
  if s.pois.any (fun p => p.id == id) then
    let doomed := s.poi_photos.filter (fun ph => ph.poi_id == id)
    { calls := [NetCall.deletePoiRows id],
      state := { s with
        pois := s.pois.filter (fun p => p.id != id),
        poi_photos := s.poi_photos.filter (fun ph => ph.poi_id != id),
        objectStore := s.objectStore.filter
          (fun u => !(doomed.any (fun ph => ph.storage_url == u))),
        cachePois := s.cachePois.filter (fun p => p.id != id),
        cacheGallery := match s.cacheGallery with
          | some (gp, gps) => if gp == id then none else some (gp, gps)
          | none => none },
      err := none }
  else
    { calls := [NetCall.deletePoiRows id], state := s,
      err := some CoreError.NotFound }

/-- Modelled from the spec: uploadPhoto(poiId, file, caption) uploads the
binary to the Object Store, then inserts the photo record into the
Persistent Store referencing the returned location; if the metadata
insert fails after a successful binary upload (environment behaviour
modelled by the insertFails flag), the coordinator attempts to delete the
orphaned binary and surfaces WriteRejected, leaving the cache without any
photo whose metadata record does not exist. -/
def uploadPhoto (poi_id : ℕ) (path : String) (caption : Option String)
    (insertFails : Bool) (s : State) : OpResult :=
  if insertFails then
    { calls := [NetCall.uploadBinary path, NetCall.insertPhotoRow,
                NetCall.removeBinary path],
      state := { s with
        objectStore := (s.objectStore ++ [path]).filter (fun u => u != path) },
      err := some CoreError.WriteRejected }
  else
    let ph : POIPhoto := { id := s.nextPhotoId, poi_id := poi_id,
                           storage_url := path, caption := caption,
                           is_hero := false }
    { calls := [NetCall.uploadBinary path, NetCall.insertPhotoRow],
      state := { s with
        objectStore := s.objectStore ++ [path],
        poi_photos := s.poi_photos ++ [ph],
        cacheGallery := match s.cacheGallery with
          | some (gp, gps) =>
              if gp == poi_id then some (gp, gps ++ [ph]) else some (gp, gps)
          | none => none,
        nextPhotoId := s.nextPhotoId + 1 },
      err := none }

/-- Clearing the hero flag on every photo of the given POI. -/
def clearHeroes (poi_id : ℕ) (l : List POIPhoto) : List POIPhoto :=
  l.map (fun ph => if ph.poi_id == poi_id then { ph with is_hero := false } else ph)

/-- Setting the hero flag on the photo with the given identifier. -/
def setHeroFlag (photo_id : ℕ) (l : List POIPhoto) : List POIPhoto :=
  l.map (fun ph => if ph.id == photo_id then { ph with is_hero := true } else ph)

/-- Modelled from the spec: setHeroPhoto(poiId, photoId) enforces the
single-hero invariant as one logical transaction: in a single step it
clears the hero flag on all sibling photos of the POI and sets it on the
target, both in the Persistent Store and in the cache gallery; it fails
with NotFound when the target photo does not belong to the POI. -/
def setHeroPhoto (poi_id photo_id : ℕ) (s : State) : OpResult :=
  if s.poi_photos.any (fun ph => ph.id == photo_id && ph.poi_id == poi_id) then
    { calls := [NetCall.updatePoiRow poi_id],
      state := { s with
        poi_photos := setHeroFlag photo_id (clearHeroes poi_id s.poi_photos),
        cacheGallery := match s.cacheGallery with
          | some (gp, gps) => some (gp, setHeroFlag photo_id (clearHeroes poi_id gps))
          | none => none },
      err := none }
  else
    { calls := [], state := s, err := some CoreError.NotFound }

/-- Modelled from the spec: deletePhoto(photoId) deletes the Object Store
binary and the Persistent Store record; no automatic hero reassignment
occurs when the hero photo is deleted — no other photo has its flag
changed. -/
def deletePhoto (photo_id : ℕ) (s : State) : OpResult :=
  match s.poi_photos.find? (fun ph => ph.id == photo_id) with
  | none =>
      { calls := [], state := s, err := some CoreError.NotFound }
  | some ph =>
      { calls := [NetCall.removeBinary ph.storage_url,
                  NetCall.deletePhotoRow photo_id],
        state := { s with
          poi_photos := s.poi_photos.filter (fun q => q.id != photo_id),
          objectStore := s.objectStore.filter (fun u => u != ph.storage_url),
          cacheGallery := match s.cacheGallery with
            | some (gp, gps) => some (gp, gps.filter (fun q => q.id != photo_id))
            | none => none },
        err := none }

/-- One observable step of the core: any cache or coordinator operation. -/
inductive Op
  | opLoad
  | opLoadPhotos (poi_id : ℕ)
  | opCreatePOI (f : POIFields)
  | opUpdatePOI (id : ℕ) (f : POIFields)
  | opDeletePOI (id : ℕ)
  | opUploadPhoto (poi_id : ℕ) (path : String) (caption : Option String)
      (insertFails : Bool)
  | opSetHeroPhoto (poi_id photo_id : ℕ)
  | opDeletePhoto (photo_id : ℕ)

/-- The state after one observable operation of the core. -/
def applyOp : Op → State → State
  | Op.opLoad, s => (load s).1
  | Op.opLoadPhotos pid, s => (loadPhotos pid s).1
  | Op.opCreatePOI f, s => (createPOI f s).state
  | Op.opUpdatePOI id f, s => (updatePOI id f s).state
  | Op.opDeletePOI id, s => (deletePOI id s).state
  | Op.opUploadPhoto pid path cap fl, s => (uploadPhoto pid path cap fl s).state
  | Op.opSetHeroPhoto pid tid, s => (setHeroPhoto pid tid s).state
  | Op.opDeletePhoto tid, s => (deletePhoto tid s).state

/-! ## Invariants -/

/-- Number of hero photos a POI has in a photo list. -/
def heroCount (poi_id : ℕ) (l : List POIPhoto) : ℕ :=
  l.countP (fun ph => ph.poi_id == poi_id && ph.is_hero)

/-- Every POI has at most one hero photo in the list. -/
def singleHero (l : List POIPhoto) : Prop :=
  ∀ q : ℕ, heroCount q l ≤ 1

/-- The hero invariant at an observable point: at most one hero photo per
POI in the Persistent Store, and at most one hero photo in the cached
gallery. -/
def heroInvariant (s : State) : Prop :=
  singleHero s.poi_photos ∧
  ∀ gp gps, s.cacheGallery = some (gp, gps) →
    gps.countP (fun ph => ph.is_hero) ≤ 1

/-- Structural well-formedness of a state: photo identifiers in the
Persistent Store are distinct and below the fresh-id counter, and every
cached gallery photo is a store record of the POI on view with distinct
identifiers. -/
def wfState (s : State) : Prop :=
  ((s.poi_photos.map (fun ph => ph.id)).Nodup ∧
    ∀ ph ∈ s.poi_photos, ph.id < s.nextPhotoId) ∧
  ∀ gp gps, s.cacheGallery = some (gp, gps) →
    (gps.map (fun ph => ph.id)).Nodup ∧
    ∀ ph ∈ gps, ph ∈ s.poi_photos ∧ ph.poi_id = gp

/-! ## Helper lemmas about the photo-list transformations -/

lemma setHero_clear_map (poi_id photo_id : ℕ) (l : List POIPhoto) :
    setHeroFlag photo_id (clearHeroes poi_id l) =
    l.map (fun x => { x with is_hero :=
      if x.id == photo_id then true
      else if x.poi_id == poi_id then false else x.is_hero }) := by
  unfold setHeroFlag clearHeroes
  rw [List.map_map]
  apply List.map_congr_left
  intro x _
  cases x with
  | mk i p u c h =>
    by_cases h1 : p == poi_id <;> by_cases h2 : i == photo_id <;>
      simp [Function.comp, h1, h2]

lemma map_photoId_setHero_clear (poi_id photo_id : ℕ) (l : List POIPhoto) :
    (setHeroFlag photo_id (clearHeroes poi_id l)).map (fun ph => ph.id) =
    l.map (fun ph => ph.id) := by
  rw [setHero_clear_map, List.map_map]
  rfl

lemma countP_setHero_clear (poi_id photo_id : ℕ) (p : POIPhoto → Bool)
    (l : List POIPhoto) :
    (setHeroFlag photo_id (clearHeroes poi_id l)).countP p =
    l.countP (fun x => p { x with is_hero :=
      if x.id == photo_id then true
      else if x.poi_id == poi_id then false else x.is_hero }) := by
  rw [setHero_clear_map, List.countP_map]
  rfl

lemma countP_photoId_le_one (photo_id : ℕ) (l : List POIPhoto)
    (h : (l.map (fun ph => ph.id)).Nodup) :
    l.countP (fun ph => ph.id == photo_id) ≤ 1 := by
  have h1 : l.countP (fun ph => ph.id == photo_id) =
      (l.map (fun ph => ph.id)).countP (fun i => i == photo_id) := by
    rw [List.countP_map]
    rfl
  rw [h1, ← List.count_eq_countP]
  exact List.nodup_iff_count_le_one.mp h photo_id

lemma eq_singleton_of_mem_of_length_le_one {α : Type} {l : List α} {a : α}
    (ha : a ∈ l) (hl : l.length ≤ 1) : l = [a] := by
  cases l with
  | nil => cases ha
  | cons b t =>
    cases t with
    | nil =>
      simp only [List.mem_singleton] at ha
      rw [ha]
    | cons c u => simp at hl

lemma filter_photoId_eq_singleton (photo_id : ℕ) (l : List POIPhoto)
    (t : POIPhoto) (h : (l.map (fun ph => ph.id)).Nodup) (ht : t ∈ l)
    (hid : t.id = photo_id) :
    l.filter (fun ph => ph.id == photo_id) = [t] := by
  apply eq_singleton_of_mem_of_length_le_one
  · exact List.mem_filter.mpr ⟨ht, by simp [hid]⟩
  · rw [← List.countP_eq_length_filter]
    exact countP_photoId_le_one photo_id l h

lemma mem_heroFirst {l : List POIPhoto} {ph : POIPhoto} :
    ph ∈ heroFirst l ↔ ph ∈ l := by
  unfold heroFirst
  rw [List.mem_append, List.mem_filter, List.mem_filter]
  constructor
  · rintro (⟨h, _⟩ | ⟨h, _⟩) <;> exact h
  · intro h
    by_cases hh : ph.is_hero
    · exact Or.inl ⟨h, by simp [hh]⟩
    · exact Or.inr ⟨h, by simp [hh]⟩

lemma nodup_map_photoId_heroFirst (l : List POIPhoto)
    (h : (l.map (fun ph => ph.id)).Nodup) :
    ((heroFirst l).map (fun ph => ph.id)).Nodup := by
  unfold heroFirst
  rw [List.map_append, List.nodup_append]
  refine ⟨((List.filter_sublist l).map _).nodup h,
          ((List.filter_sublist l).map _).nodup h, ?_⟩
  intro a ha hb
  obtain ⟨x, hx, hxa⟩ := List.mem_map.mp ha
  obtain ⟨y, hy, hya⟩ := List.mem_map.mp hb
  have hxy : x = y := List.inj_on_of_nodup_map h (List.mem_of_mem_filter hx)
    (List.mem_of_mem_filter hy) (hxa.trans hya.symm)
  have hpx := (List.mem_filter.mp hx).2
  have hpy := (List.mem_filter.mp hy).2
  rw [hxy] at hpx
  simp only [Bool.not_eq_true'] at hpy
  rw [hpx] at hpy
  cases hpy

lemma countP_hero_heroFirst (l : List POIPhoto) :
    (heroFirst l).countP (fun ph => ph.is_hero) =
    l.countP (fun ph => ph.is_hero) := by
  unfold heroFirst
  rw [List.countP_append, List.countP_filter, List.countP_filter]
  have h1 : (l.countP fun a => a.is_hero && a.is_hero) =
      l.countP (fun a => a.is_hero) :=
    List.countP_congr (fun a _ => by cases ha : a.is_hero <;> simp [ha])
  have h2 : (l.countP fun a => a.is_hero && !a.is_hero) = 0 := by
    rw [List.countP_eq_zero]
    intro a _
    cases ha : a.is_hero <;> simp [ha]
  rw [h1, h2]
  exact Nat.add_zero _

lemma filter_hero_heroFirst (l : List POIPhoto) :
    (heroFirst l).filter (fun ph => ph.is_hero) =
    l.filter (fun ph => ph.is_hero) := by
  unfold heroFirst
  rw [List.filter_append, List.filter_filter, List.filter_filter]
  have h1 : (l.filter fun a => a.is_hero && a.is_hero) =
      l.filter (fun a => a.is_hero) :=
    List.filter_congr (fun a _ => by cases ha : a.is_hero <;> simp [ha])
  have h2 : (l.filter fun a => a.is_hero && !a.is_hero) = [] := by
    rw [List.filter_eq_nil_iff]
    intro a _
    cases ha : a.is_hero <;> simp [ha]
  rw [h1, h2, List.append_nil]

lemma countP_gallery_le_heroCount (gps l : List POIPhoto) (gp : ℕ)
    (hn : (gps.map (fun ph => ph.id)).Nodup)
    (hmem : ∀ x ∈ gps, x ∈ l ∧ x.poi_id = gp) :
    gps.countP (fun ph => ph.is_hero) ≤ heroCount gp l := by
  have hsub : ((gps.filter (fun ph => ph.is_hero)).map (fun ph => ph.id)) ⊆
      ((l.filter (fun ph => ph.poi_id == gp && ph.is_hero)).map
        (fun ph => ph.id)) := by
    intro a ha
    obtain ⟨x, hx, hxa⟩ := List.mem_map.mp ha
    obtain ⟨hxg, hxh⟩ := List.mem_filter.mp hx
    obtain ⟨hxl, hxp⟩ := hmem x hxg
    exact List.mem_map.mpr ⟨x, List.mem_filter.mpr ⟨hxl, by simp [hxp, hxh]⟩, hxa⟩
  have hnd : ((gps.filter (fun ph => ph.is_hero)).map (fun ph => ph.id)).Nodup :=
    ((List.filter_sublist gps).map _).nodup hn
  have hlen := (hnd.subperm hsub).length_le
  rw [List.length_map, List.length_map] at hlen
  rw [heroCount, List.countP_eq_length_filter, List.countP_eq_length_filter]
  exact hlen

/-! ## Preservation of well-formedness and the single-hero property -/

lemma singleHero_filter (l : List POIPhoto) (p : POIPhoto → Bool)
    (h : singleHero l) : singleHero (l.filter p) := by
  intro q
  exact le_trans ((List.filter_sublist l).countP_le _) (h q)

lemma nodup_photoIds_filter (l : List POIPhoto) (p : POIPhoto → Bool)
    (h : (l.map (fun ph => ph.id)).Nodup) :
    ((l.filter p).map (fun ph => ph.id)).Nodup :=
  ((List.filter_sublist l).map _).nodup h

lemma nodup_photoIds_append_fresh (l : List POIPhoto) (ph : POIPhoto) (n : ℕ)
    (h : (l.map (fun x => x.id)).Nodup) (hb : ∀ x ∈ l, x.id < n)
    (hph : ph.id = n) :
    ((l ++ [ph]).map (fun x => x.id)).Nodup := by
  rw [List.map_append, List.nodup_append]
  refine ⟨h, List.nodup_singleton _, ?_⟩
  intro a ha hb2
  obtain ⟨x, hx, rfl⟩ := List.mem_map.mp ha
  simp only [List.map_cons, List.map_nil, List.mem_singleton] at hb2
  have h1 := hb x hx
  rw [hb2, hph] at h1
  exact lt_irrefl n h1

lemma singleHero_append_nonhero (l : List POIPhoto) (ph : POIPhoto)
    (h : singleHero l) (hh : ph.is_hero = false) : singleHero (l ++ [ph]) := by
  intro q
  have h2 : List.countP (fun x => x.poi_id == q && x.is_hero) [ph] = 0 := by
    simp [List.countP_cons, hh]
  simp only [heroCount, List.countP_append, h2, Nat.add_zero]
  exact h q

lemma heroCount_setHero_clear (poi_id photo_id q : ℕ) (l : List POIPhoto) :
    heroCount q (setHeroFlag photo_id (clearHeroes poi_id l)) =
    l.countP (fun x => x.poi_id == q &&
      (if x.id == photo_id then true
       else if x.poi_id == poi_id then false else x.is_hero)) := by
  rw [heroCount, setHero_clear_map, List.countP_map]
  rfl

lemma singleHero_setHero_clear (poi_id photo_id : ℕ) (l : List POIPhoto)
    (hn : (l.map (fun ph => ph.id)).Nodup) (t : POIPhoto) (ht : t ∈ l)
    (hid : t.id = photo_id) (hp : t.poi_id = poi_id) (hsh : singleHero l) :
    singleHero (setHeroFlag photo_id (clearHeroes poi_id l)) := by
  intro q
  rw [heroCount_setHero_clear]
  by_cases hq : q = poi_id
  · subst hq
    refine le_trans (List.countP_mono_left ?_) (countP_photoId_le_one photo_id l hn)
    intro x hx hc
    rw [Bool.and_eq_true] at hc
    obtain ⟨hpq, hhero⟩ := hc
    by_cases hxid : x.id = photo_id
    · simp [hxid]
    · exfalso
      rw [if_neg (by simp [hxid]), if_pos hpq] at hhero
      simp at hhero
  · refine le_trans (List.countP_mono_left ?_) (hsh q)
    intro x hx hc
    rw [Bool.and_eq_true] at hc
    obtain ⟨hpq, hhero⟩ := hc
    rw [beq_iff_eq] at hpq
    rw [Bool.and_eq_true, beq_iff_eq]
    refine ⟨hpq, ?_⟩
    by_cases hxid : x.id = photo_id
    · exfalso
      have hxt : x = t := List.inj_on_of_nodup_map hn hx ht (by rw [hxid, hid])
      apply hq
      rw [← hpq, hxt, hp]
    · rw [if_neg (by simp [hxid])] at hhero
      by_cases hpp : x.poi_id = poi_id
      · exact absurd (hpq.symm.trans hpp) hq
      · rw [if_neg (by simp [hpp])] at hhero
        exact hhero

lemma wf_singleHero_applyOp (op : Op) (s : State)
    (hwf : wfState s) (hsh : singleHero s.poi_photos) :
    wfState (applyOp op s) ∧ singleHero (applyOp op s).poi_photos := by
  obtain ⟨⟨hnd, hbound⟩, hgal⟩ := hwf
  cases op with
  | opLoad =>
      exact ⟨⟨⟨hnd, hbound⟩, hgal⟩, hsh⟩
  | opLoadPhotos pid =>
      refine ⟨⟨⟨hnd, hbound⟩, ?_⟩, hsh⟩
      intro gp gps heq
      have heq2 : some (pid, heroFirst (photosOf pid s)) = some (gp, gps) := heq
      rw [Option.some.injEq, Prod.mk.injEq] at heq2
      obtain ⟨rfl, rfl⟩ := heq2
      refine ⟨nodup_map_photoId_heroFirst _ (nodup_photoIds_filter _ _ hnd), ?_⟩
      intro ph hph
      have hmem := mem_heroFirst.mp hph
      obtain ⟨h1, h2⟩ := List.mem_filter.mp hmem
      rw [beq_iff_eq] at h2
      exact ⟨h1, h2⟩
  | opCreatePOI f =>
      obtain ⟨nm, lat, lng, vd, no, tn, dm, eg, df⟩ := f
      cases lat <;> cases lng <;> cases vd <;>
        simp only [applyOp, createPOI] <;>
        (try split) <;>
        exact ⟨⟨⟨hnd, hbound⟩, hgal⟩, hsh⟩
  | opUpdatePOI id f =>
      obtain ⟨nm, lat, lng, vd, no, tn, dm, eg, df⟩ := f
      cases lat <;> cases lng <;> cases vd <;>
        simp only [applyOp, updatePOI] <;>
        (try split) <;> (try split) <;>
        exact ⟨⟨⟨hnd, hbound⟩, hgal⟩, hsh⟩
  | opDeletePOI id =>
      simp only [applyOp, deletePOI]
      split
      · refine ⟨⟨⟨nodup_photoIds_filter _ _ hnd, ?_⟩, ?_⟩,
          singleHero_filter _ _ hsh⟩
        · intro ph hph
          exact hbound ph (List.mem_of_mem_filter hph)
        · intro gp gps heq
          rcases hgc : s.cacheGallery with _ | ⟨gp0, gps0⟩
          · simp [hgc] at heq
          · simp only [hgc] at heq
            split at heq
            · cases heq
            · rename_i hne
              rw [Option.some.injEq, Prod.mk.injEq] at heq
              obtain ⟨rfl, rfl⟩ := heq
              obtain ⟨gnd, gmem⟩ := hgal gp0 gps0 hgc
              refine ⟨gnd, ?_⟩
              intro ph hph
              obtain ⟨hqs, hqp⟩ := gmem ph hph
              refine ⟨List.mem_filter.mpr ⟨hqs, ?_⟩, hqp⟩
              rw [bne_iff_ne, hqp]
              intro hcon
              exact hne (by rw [beq_iff_eq]; exact hcon)
      · exact ⟨⟨⟨hnd, hbound⟩, hgal⟩, hsh⟩
  | opUploadPhoto pid path cap fl =>
      cases fl with
      | true => exact ⟨⟨⟨hnd, hbound⟩, hgal⟩, hsh⟩
      | false =>
          simp only [applyOp, uploadPhoto, Bool.false_eq_true, if_false]
          refine ⟨⟨⟨?_, ?_⟩, ?_⟩, ?_⟩
          · exact nodup_photoIds_append_fresh _ _ _ hnd hbound rfl
          · intro ph hph
            rcases List.mem_append.mp hph with h | h
            · exact Nat.lt_succ_of_lt (hbound ph h)
            · rw [List.mem_singleton] at h
              rw [h]
              exact Nat.lt_succ_self _
          · intro gp gps heq
            rcases hgc : s.cacheGallery with _ | ⟨gp0, gps0⟩
            · simp [hgc] at heq
            · simp only [hgc] at heq
              obtain ⟨gnd, gmem⟩ := hgal gp0 gps0 hgc
              split at heq
              · rename_i hgid
                rw [beq_iff_eq] at hgid
                rw [Option.some.injEq, Prod.mk.injEq] at heq
                obtain ⟨rfl, rfl⟩ := heq
                constructor
                · refine nodup_photoIds_append_fresh _ _ s.nextPhotoId gnd ?_ rfl
                  intro x hx
                  exact hbound x (gmem x hx).1
                · intro ph hph
                  rcases List.mem_append.mp hph with h | h
                  · exact ⟨List.mem_append_left _ (gmem ph h).1, (gmem ph h).2⟩
                  · rw [List.mem_singleton] at h
                    rw [h]
                    refine ⟨List.mem_append_right _ (List.mem_singleton_self _), ?_⟩
                    exact hgid.symm
              · rw [Option.some.injEq, Prod.mk.injEq] at heq
                obtain ⟨rfl, rfl⟩ := heq
                refine ⟨gnd, ?_⟩
                intro ph hph
                exact ⟨List.mem_append_left _ (gmem ph hph).1, (gmem ph hph).2⟩
          · exact singleHero_append_nonhero _ _ hsh rfl
  | opSetHeroPhoto pid tid =>
      simp only [applyOp, setHeroPhoto]
      split
      · rename_i hany
        obtain ⟨t, ht, hcond⟩ := List.any_eq_true.mp hany
        rw [Bool.and_eq_true, beq_iff_eq, beq_iff_eq] at hcond
        obtain ⟨hid, hp⟩ := hcond
        refine ⟨⟨⟨?_, ?_⟩, ?_⟩, ?_⟩
        · rw [map_photoId_setHero_clear]
          exact hnd
        · intro ph hph
          rw [setHero_clear_map] at hph
          obtain ⟨x, hx, rfl⟩ := List.mem_map.mp hph
          exact hbound x hx
        · intro gp gps heq
          rcases hgc : s.cacheGallery with _ | ⟨gp0, gps0⟩
          · simp [hgc] at heq
          · simp only [hgc] at heq
            rw [Option.some.injEq, Prod.mk.injEq] at heq
            obtain ⟨rfl, rfl⟩ := heq
            obtain ⟨gnd, gmem⟩ := hgal gp0 gps0 hgc
            constructor
            · rw [map_photoId_setHero_clear]
              exact gnd
            · intro ph hph
              rw [setHero_clear_map] at hph
              obtain ⟨x, hx, rfl⟩ := List.mem_map.mp hph
              obtain ⟨hxs, hxp⟩ := gmem x hx
              constructor
              · rw [setHero_clear_map]
                exact List.mem_map.mpr ⟨x, hxs, rfl⟩
              · exact hxp
        · exact singleHero_setHero_clear pid tid s.poi_photos hnd t ht hid hp hsh
      · exact ⟨⟨⟨hnd, hbound⟩, hgal⟩, hsh⟩
  | opDeletePhoto tid =>
      simp only [applyOp, deletePhoto]
      rcases hf : s.poi_photos.find? (fun ph => ph.id == tid) with _ | ph
      · simp only [hf]
        exact ⟨⟨⟨hnd, hbound⟩, hgal⟩, hsh⟩
      · simp only [hf]
        refine ⟨⟨⟨nodup_photoIds_filter _ _ hnd, ?_⟩, ?_⟩,
          singleHero_filter _ _ hsh⟩
        · intro q hq
          exact hbound q (List.mem_of_mem_filter hq)
        · intro gp gps heq
          rcases hgc : s.cacheGallery with _ | ⟨gp0, gps0⟩
          · simp [hgc] at heq
          · simp only [hgc] at heq
            rw [Option.some.injEq, Prod.mk.injEq] at heq
            obtain ⟨rfl, rfl⟩ := heq
            obtain ⟨gnd, gmem⟩ := hgal gp0 gps0 hgc
            refine ⟨nodup_photoIds_filter _ _ gnd, ?_⟩
            intro q hq
            obtain ⟨hq1, hq2⟩ := List.mem_filter.mp hq
            obtain ⟨hqs, hqp⟩ := gmem q hq1
            exact ⟨List.mem_filter.mpr ⟨hqs, hq2⟩, hqp⟩

lemma gallery_le_one_of_wf (s : State) (hwf : wfState s)
    (hsh : singleHero s.poi_photos) :
    ∀ gp gps, s.cacheGallery = some (gp, gps) →
      gps.countP (fun ph => ph.is_hero) ≤ 1 := by
  intro gp gps hg
  obtain ⟨-, hgal⟩ := hwf
  obtain ⟨hnde, hmem⟩ := hgal gp gps hg
  exact le_trans (countP_gallery_le_heroCount gps s.poi_photos gp hnde hmem)
    (hsh gp)

/-! ## Concrete states and inputs used by scenario theorems and witnesses -/

def initialState : State :=
  { pois := [], poi_photos := [], objectStore := [], cachePois := [],
    cacheGallery := none, nextPoiId := 0, nextPhotoId := 0 }

def cunninghamFields : POIFields :=
  { name := "Cunningham Falls", lat := some 39.6298, lng := some (-77.4602),
    visited_date := some "2024-07-04", difficulty := some Difficulty.moderate }

lemma wfState_initialState : wfState initialState := by
  refine ⟨⟨by simp [initialState], by simp [initialState]⟩, ?_⟩
  intro gp gps h
  exact absurd h (by simp [initialState])

lemma heroInvariant_initialState : heroInvariant initialState := by
  refine ⟨fun q => by simp [initialState, heroCount], ?_⟩
  intro gp gps h
  exact absurd h (by simp [initialState])

/-- Pointwise characterization of the bounding-box test. -/
lemma inBounds_true_iff (lng lat : ℚ) :
    inBounds lng lat = true ↔
    (-77.55 ≤ lng ∧ lng ≤ -77.36 ∧ 39.58 ≤ lat ∧ lat ≤ 39.69) := by
  simp [inBounds, CATOCTIN_BOUNDS, and_assoc]

lemma inBounds_cunningham : inBounds (-77.4602) 39.6298 = true := by
  rw [inBounds_true_iff]
  norm_num

/-! ## Claim theorems -/

/-- C10: the geographic constants of mapConfig.ts are mutually
consistent: in CATOCTIN_BOUNDS the southwest corner is componentwise
strictly less than the northeast corner, and CATOCTIN_CENTER lies
strictly inside the bounding box. -/
theorem catoctin_constants_consistent :
    CATOCTIN_BOUNDS.1.1 < CATOCTIN_BOUNDS.2.1 ∧
    CATOCTIN_BOUNDS.1.2 < CATOCTIN_BOUNDS.2.2 ∧
    CATOCTIN_BOUNDS.1.1 < CATOCTIN_CENTER.1 ∧
    CATOCTIN_CENTER.1 < CATOCTIN_BOUNDS.2.1 ∧
    CATOCTIN_BOUNDS.1.2 < CATOCTIN_CENTER.2 ∧
    CATOCTIN_CENTER.2 < CATOCTIN_BOUNDS.2.2 := by
  refine ⟨?_, ?_, ?_, ?_, ?_, ?_⟩ <;>
    norm_num [CATOCTIN_BOUNDS, CATOCTIN_CENTER]

/-- C9: the App routing component registers exactly three routes, "/"
rendering LoginPage, "/map" rendering MapPage and "/admin" rendering
AdminPage, with no authentication guard: the registered route list is the
same constant for every authentication state. -/
theorem app_routes_constant_unguarded (a : AuthState) :
    App a = [{ path := "/", element := Page.LoginPage },
             { path := "/map", element := Page.MapPage },
             { path := "/admin", element := Page.AdminPage }] ∧
    (App a).length = 3 ∧
    ∀ b : AuthState, App a = App b :=
  ⟨rfl, rfl, fun _ => rfl⟩

/-- C8: the POI with name "Cunningham Falls", coordinates lat 39.6298 and
lng -77.4602, visit date 2024-07-04 and difficulty moderate passes
createPOI local validation (its coordinates lie within CATOCTIN_BOUNDS),
createPOI on it succeeds, and the cache afterwards contains exactly one
POI named "Cunningham Falls", whose difficulty is moderate. -/
theorem createPOI_cunningham_falls_scenario :
    inBounds (-77.4602) 39.6298 = true ∧
    (createPOI cunninghamFields initialState).err = none ∧
    ((getAll (createPOI cunninghamFields initialState).state).filter
      (fun p => p.name == "Cunningham Falls")).length = 1 ∧
    ∀ p ∈ getAll (createPOI cunninghamFields initialState).state,
      p.name = "Cunningham Falls" ∧ p.difficulty = some Difficulty.moderate := by
  refine ⟨inBounds_cunningham, ?_, ?_, ?_⟩
  · simp [createPOI, cunninghamFields, inBounds_cunningham]
  · simp [createPOI, cunninghamFields, inBounds_cunningham, getAll,
      initialState, mkPOI]
  · intro p hp
    simp [createPOI, cunninghamFields, inBounds_cunningham, getAll,
      initialState, mkPOI] at hp
    rw [hp]
    exact ⟨rfl, rfl⟩

/-- C3: when the name is empty, a coordinate is non-numeric (absent), the
coordinates fall outside CATOCTIN_BOUNDS, or the visit date is absent,
createPOI fails with ValidationFailed, makes no network call and leaves
the state untouched. -/
theorem createPOI_invalid_fails_before_network (f : POIFields) (s : State)
    (h : f.name = "" ∨ f.lat = none ∨ f.lng = none ∨
      (∃ la ln, f.lat = some la ∧ f.lng = some ln ∧ inBounds ln la = false) ∨
      f.visited_date = none) :
    createPOI f s = { calls := [], state := s,
                      err := some CoreError.ValidationFailed } := by
  obtain ⟨nm, lat, lng, vd, no, tn, dm, eg, df⟩ := f
  cases lat with
  | none => rfl
  | some la =>
    cases lng with
    | none => rfl
    | some ln =>
      cases vd with
      | none => rfl
      | some d =>
        simp only [createPOI]
        rw [if_neg]
        simp only [Option.some.injEq, reduceCtorEq, or_false, false_or] at h
        rcases h with h | ⟨la2, ln2, hla, hln, hb⟩
        · simp [h]
        · rw [hla] at *
          rw [hln] at *
          intro hc
          rw [Bool.and_eq_true] at hc
          exact absurd hc.2 (by rw [hb]; simp)
  -- end

/-- C4: a successful createPOI followed by load() yields a snapshot
containing the newly created POI with field values identical to those
submitted. -/
theorem createPOI_load_roundtrip (f : POIFields) (s : State)
    (la ln : ℚ) (d : String)
    (hla : f.lat = some la) (hln : f.lng = some ln)
    (hd : f.visited_date = some d) (hnm : f.name ≠ "")
    (hb : inBounds ln la = true) :
    (createPOI f s).err = none ∧
    ∃ p ∈ (load (createPOI f s).state).2,
      p.name = f.name ∧ p.lat = la ∧ p.lng = ln ∧ p.visited_date = d ∧
      p.notes = f.notes ∧ p.trail_name = f.trail_name ∧
      p.distance_miles = f.distance_miles ∧
      p.elevation_gain_ft = f.elevation_gain_ft ∧
      p.difficulty = f.difficulty := by
  have hcond : (f.name != "" && inBounds ln la) = true := by
    rw [Bool.and_eq_true, bne_iff_ne]
    exact ⟨hnm, hb⟩
  simp only [createPOI, hla, hln, hd]
  rw [if_pos hcond]
  refine ⟨rfl, mkPOI s.nextPoiId f.name la ln d f, ?_, ?_⟩
  · simp [load]
  · exact ⟨rfl, rfl, rfl, rfl, rfl, rfl, rfl, rfl, rfl⟩

/-- C5: a successful deletePOI(id) removes the POI and all of its photos
from the Persistent Store, the Object Store and the cache, so that a
subsequent load() yields no POI matching id and no photo referencing
id. -/
theorem deletePOI_removes_all_traces (id : ℕ) (s : State)
    (hwf : wfState s)
    (hex : s.pois.any (fun p => p.id == id) = true) :
    (deletePOI id s).err = none ∧
    (∀ p ∈ (load (deletePOI id s).state).2, p.id ≠ id) ∧
    (∀ ph ∈ (deletePOI id s).state.poi_photos, ph.poi_id ≠ id) ∧
    (∀ p ∈ getAll (deletePOI id s).state, p.id ≠ id) ∧
    (∀ gp gps, (deletePOI id s).state.cacheGallery = some (gp, gps) →
      gp ≠ id ∧ ∀ ph ∈ gps, ph.poi_id ≠ id) ∧
    (∀ ph ∈ s.poi_photos, ph.poi_id = id →
      ph.storage_url ∉ (deletePOI id s).state.objectStore) := by
  obtain ⟨-, hgal⟩ := hwf
  simp only [deletePOI]
  rw [if_pos hex]
  refine ⟨rfl, ?_, ?_, ?_, ?_, ?_⟩
  · intro p hp
    have hp2 : p ∈ s.pois.filter (fun q => q.id != id) := by
      simpa [load] using hp
    have := (List.mem_filter.mp hp2).2
    rwa [bne_iff_ne] at this
  · intro ph hph
    have := (List.mem_filter.mp hph).2
    rwa [bne_iff_ne] at this
  · intro p hp
    have := (List.mem_filter.mp hp).2
    rwa [bne_iff_ne] at this
  · intro gp gps heq
    rcases hgc : s.cacheGallery with _ | ⟨gp0, gps0⟩
    · rw [hgc] at heq
      cases heq
    · rw [hgc] at heq
      simp only at heq
      split at heq
      · cases heq
      · rename_i hne
        rw [Option.some.injEq, Prod.mk.injEq] at heq
        obtain ⟨rfl, rfl⟩ := heq
        have hgpne : gp0 ≠ id := by
          intro hcon
          exact hne (by rw [beq_iff_eq]; exact hcon)
        refine ⟨hgpne, ?_⟩
        intro ph hph
        obtain ⟨-, hqp⟩ := (hgal gp0 gps0 hgc).2 ph hph
        rw [hqp]
        exact hgpne
  · intro ph hph hpid hmem
    have h2 := (List.mem_filter.mp hmem).2
    rw [Bool.not_eq_true'] at h2
    have hany : (s.poi_photos.filter (fun q => q.poi_id == id)).any
        (fun q => q.storage_url == ph.storage_url) = true := by
      rw [List.any_eq_true]
      exact ⟨ph, List.mem_filter.mpr ⟨hph, by simp [hpid]⟩, by simp⟩
    rw [hany] at h2
    cases h2

/-- C6: when the metadata insert fails after a successful binary upload,
uploadPhoto attempts to delete the orphaned binary (the compensating
removeBinary call is issued and the path is absent from the Object Store
afterwards), surfaces WriteRejected, and the cache keeps no photo whose
metadata record does not exist. -/
theorem uploadPhoto_metadata_failure_compensates (poi_id : ℕ) (path : String)
    (caption : Option String) (s : State) (hwf : wfState s) :
    NetCall.removeBinary path ∈ (uploadPhoto poi_id path caption true s).calls ∧
    (uploadPhoto poi_id path caption true s).err =
      some CoreError.WriteRejected ∧
    path ∉ (uploadPhoto poi_id path caption true s).state.objectStore ∧
    (uploadPhoto poi_id path caption true s).state.poi_photos =
      s.poi_photos ∧
    (uploadPhoto poi_id path caption true s).state.cacheGallery =
      s.cacheGallery ∧
    ∀ gp gps,
      (uploadPhoto poi_id path caption true s).state.cacheGallery =
        some (gp, gps) →
      ∀ ph ∈ gps,
        ph ∈ (uploadPhoto poi_id path caption true s).state.poi_photos := by
  obtain ⟨-, hgal⟩ := hwf
  refine ⟨?_, rfl, ?_, rfl, rfl, ?_⟩
  · simp [uploadPhoto]
  · intro hmem
    have hmem2 : path ∈ (s.objectStore ++ [path]).filter (fun u => u != path) :=
      hmem
    have := (List.mem_filter.mp hmem2).2
    simp at this
  · intro gp gps heq ph hph
    exact ((hgal gp gps heq).2 ph hph).1

/-- C1: at every observable point (any reachable state through the cache
and coordinator operations, outside an in-flight setHeroPhoto), every POI
has at most one photo with is_hero = true; and setHeroPhoto produces, in
one atomic step, the photo table obtained by first clearing the hero flag
on all sibling photos of the POI and then setting it on the target. -/
theorem single_hero_invariant_preserved (op : Op) (s : State)
    (hwf : wfState s) (hinv : heroInvariant s) :
    (wfState (applyOp op s) ∧ heroInvariant (applyOp op s)) ∧
    ∀ pid tid, (setHeroPhoto pid tid s).err = none →
      (setHeroPhoto pid tid s).state.poi_photos =
        setHeroFlag tid (clearHeroes pid s.poi_photos) := by
  obtain ⟨hsh, -⟩ := hinv
  obtain ⟨hwf2, hsh2⟩ := wf_singleHero_applyOp op s hwf hsh
  refine ⟨⟨hwf2, hsh2, gallery_le_one_of_wf _ hwf2 hsh2⟩, ?_⟩
  intro pid tid herr
  by_cases hc : s.poi_photos.any
      (fun ph => ph.id == tid && ph.poi_id == pid) = true
  · simp only [setHeroPhoto, if_pos hc]
  · simp only [setHeroPhoto, if_neg hc] at herr
    cases herr

/-- C2: for a photo belonging to the POI, a successful
setHeroPhoto(poiId, photoId) followed by loadPhotos(poiId) yields exactly
one photo with is_hero = true, and it is the one identified by
photoId. -/
theorem setHeroPhoto_loadPhotos_single_hero (poi_id photo_id : ℕ) (s : State)
    (hnd : (s.poi_photos.map (fun ph => ph.id)).Nodup)
    (t : POIPhoto) (ht : t ∈ s.poi_photos) (hid : t.id = photo_id)
    (hp : t.poi_id = poi_id) :
    (setHeroPhoto poi_id photo_id s).err = none ∧
    ((loadPhotos poi_id (setHeroPhoto poi_id photo_id s).state).2.filter
      (fun ph => ph.is_hero)).map (fun ph => ph.id) = [photo_id] := by
  have hany : s.poi_photos.any
      (fun ph => ph.id == photo_id && ph.poi_id == poi_id) = true := by
    rw [List.any_eq_true]
    exact ⟨t, ht, by simp [hid, hp]⟩
  simp only [setHeroPhoto, if_pos hany]
  refine ⟨trivial, ?_⟩
  simp only [loadPhotos, photosOf]
  rw [filter_hero_heroFirst, List.filter_filter, setHero_clear_map,
    List.filter_map]
  have hcongr : s.poi_photos.filter
      ((fun a => a.is_hero && a.poi_id == poi_id) ∘
        (fun x => { x with is_hero :=
          if x.id == photo_id then true
          else if x.poi_id == poi_id then false else x.is_hero })) =
      s.poi_photos.filter (fun x => x.id == photo_id) := by
    apply List.filter_congr
    intro x hx
    simp only [Function.comp]
    by_cases hxid : x.id = photo_id
    · have hxt : x = t := List.inj_on_of_nodup_map hnd hx ht (by rw [hxid, hid])
      rw [hxt]
      have h1 : (t.id == photo_id) = true := by simp [hid]
      have h2 : (t.poi_id == poi_id) = true := by simp [hp]
      simp [h1, h2]
    · have h1 : (x.id == photo_id) = false := by simp [hxid]
      by_cases hpp : x.poi_id = poi_id
      · have h2 : (x.poi_id == poi_id) = true := by simp [hpp]
        simp [h1, h2]
      · have h2 : (x.poi_id == poi_id) = false := by simp [hpp]
        simp [h1, h2]
  rw [hcongr, filter_photoId_eq_singleton photo_id s.poi_photos t hnd ht hid]
  simp [hid]

/-- Two distinct members both satisfying a predicate give a count of at
least two. -/
lemma two_le_countP {α : Type} (p : α → Bool) (a b : α)
    (hne : a ≠ b) (hpa : p a = true) (hpb : p b = true) :
    ∀ l : List α, a ∈ l → b ∈ l → 2 ≤ l.countP p := by
  intro l
  induction l with
  | nil => intro ha; cases ha
  | cons x xs ih =>
    intro ha hb
    rw [List.countP_cons]
    rcases List.mem_cons.mp ha with ha1 | ha2
    · rcases List.mem_cons.mp hb with hb1 | hb2
      · exact absurd (ha1.trans hb1.symm) hne
      · subst ha1
        rw [if_pos hpa]
        have h1 : 0 < xs.countP p := List.countP_pos_iff.mpr ⟨b, hb2, hpb⟩
        omega
    · rcases List.mem_cons.mp hb with hb1 | hb2
      · subst hb1
        rw [if_pos hpb]
        have h1 : 0 < xs.countP p := List.countP_pos_iff.mpr ⟨a, ha2, hpa⟩
        omega
      · have h1 := ih ha2 hb2
        have h2 : (if p x then 1 else 0) + xs.countP p ≥ xs.countP p :=
          Nat.le_add_left _ _
        omega

/-- C7: deleting the current hero photo of a POI promotes no other photo:
a subsequent loadPhotos for that POI returns the remaining photos all
with is_hero = false. -/
theorem deletePhoto_hero_no_promotion (s : State) (t : POIPhoto)
    (hsh : singleHero s.poi_photos)
    (ht : t ∈ s.poi_photos) (hhero : t.is_hero = true) :
    (deletePhoto t.id s).err = none ∧
    ∀ ph ∈ (loadPhotos t.poi_id (deletePhoto t.id s).state).2,
      ph.is_hero = false := by
  rcases hf : s.poi_photos.find? (fun ph => ph.id == t.id) with _ | u
  · exfalso
    have hs : (s.poi_photos.find? (fun ph => ph.id == t.id)).isSome :=
      List.find?_isSome.mpr ⟨t, ht, by simp⟩
    rw [hf] at hs
    cases hs
  · constructor
    · simp only [deletePhoto, hf]
    · intro ph hph
      simp only [deletePhoto, hf, loadPhotos, photosOf] at hph
      have hmem := mem_heroFirst.mp hph
      obtain ⟨h1, h2⟩ := List.mem_filter.mp hmem
      obtain ⟨h3, h4⟩ := List.mem_filter.mp h1
      by_contra hcon
      rw [Bool.not_eq_false] at hcon
      have hne : ph ≠ t := by
        intro hE
        rw [hE] at h4
        simp at h4
      have h2b : ph.poi_id = t.poi_id := by rwa [beq_iff_eq] at h2
      have hcount := two_le_countP
        (fun x => x.poi_id == t.poi_id && x.is_hero) ph t hne
        (by simp [h2b, hcon]) (by simp [hhero]) s.poi_photos h3 ht
      have hone := hsh t.poi_id
      rw [heroCount] at hone
      omega

/-! ## Concrete witness states -/

def photoA : POIPhoto :=
  { id := 0, poi_id := 1, storage_url := "a", caption := none,
    is_hero := false }

def stateA : State :=
  { pois := [], poi_photos := [photoA], objectStore := ["a"],
    cachePois := [], cacheGallery := none, nextPoiId := 2, nextPhotoId := 1 }

def poiX : POI :=
  { id := 7, name := "Wolf Rock", lat := 39.64, lng := -77.46,
    visited_date := "2024-05-01" }

def photoX : POIPhoto :=
  { id := 3, poi_id := 7, storage_url := "x", caption := none,
    is_hero := true }

def stateC : State :=
  { pois := [poiX], poi_photos := [photoX], objectStore := ["x"],
    cachePois := [poiX], cacheGallery := none, nextPoiId := 8,
    nextPhotoId := 4 }

def outOfBoundsFields : POIFields :=
  { name := "Thurmont Vista", lat := some 45, lng := some (-77.46),
    visited_date := some "2024-07-04" }

lemma wfState_stateC : wfState stateC := by
  refine ⟨⟨by simp [stateC], ?_⟩, ?_⟩
  · intro ph hph
    simp only [stateC, List.mem_singleton] at hph
    rw [hph]
    decide
  · intro gp gps h
    exact absurd h (by simp [stateC])

lemma singleHero_stateC : singleHero stateC.poi_photos :=
  fun _ => le_trans (List.countP_le_length _) (le_refl 1)

/-! ## Witnesses -/

theorem single_hero_invariant_preserved_witness :
    (wfState (applyOp (Op.opCreatePOI cunninghamFields) initialState) ∧
      heroInvariant (applyOp (Op.opCreatePOI cunninghamFields) initialState)) ∧
    ∀ pid tid, (setHeroPhoto pid tid initialState).err = none →
      (setHeroPhoto pid tid initialState).state.poi_photos =
        setHeroFlag tid (clearHeroes pid initialState.poi_photos) :=
  single_hero_invariant_preserved (Op.opCreatePOI cunninghamFields)
    initialState wfState_initialState heroInvariant_initialState

theorem setHeroPhoto_loadPhotos_single_hero_witness :
    (setHeroPhoto 1 0 stateA).err = none ∧
    ((loadPhotos 1 (setHeroPhoto 1 0 stateA).state).2.filter
      (fun ph => ph.is_hero)).map (fun ph => ph.id) = [0] :=
  setHeroPhoto_loadPhotos_single_hero 1 0 stateA (by simp [stateA])
    photoA (by simp [stateA]) rfl rfl

theorem createPOI_invalid_fails_before_network_witness :
    createPOI outOfBoundsFields initialState =
      { calls := [], state := initialState,
        err := some CoreError.ValidationFailed } :=
  createPOI_invalid_fails_before_network outOfBoundsFields initialState
    (Or.inr (Or.inr (Or.inr (Or.inl ⟨45, -77.46, rfl, rfl, by
      rw [Bool.eq_false_iff]
      intro h
      rw [inBounds_true_iff] at h
      norm_num at h⟩))))

theorem createPOI_load_roundtrip_witness :
    (createPOI cunninghamFields initialState).err = none ∧
    ∃ p ∈ (load (createPOI cunninghamFields initialState).state).2,
      p.name = cunninghamFields.name ∧ p.lat = 39.6298 ∧
      p.lng = -77.4602 ∧ p.visited_date = "2024-07-04" ∧
      p.notes = cunninghamFields.notes ∧
      p.trail_name = cunninghamFields.trail_name ∧
      p.distance_miles = cunninghamFields.distance_miles ∧
      p.elevation_gain_ft = cunninghamFields.elevation_gain_ft ∧
      p.difficulty = cunninghamFields.difficulty :=
  createPOI_load_roundtrip cunninghamFields initialState 39.6298 (-77.4602)
    "2024-07-04" rfl rfl rfl (by decide) inBounds_cunningham

theorem deletePOI_removes_all_traces_witness :
    (deletePOI 7 stateC).err = none ∧
    (∀ p ∈ (load (deletePOI 7 stateC).state).2, p.id ≠ 7) ∧
    (∀ ph ∈ (deletePOI 7 stateC).state.poi_photos, ph.poi_id ≠ 7) ∧
    (∀ p ∈ getAll (deletePOI 7 stateC).state, p.id ≠ 7) ∧
    (∀ gp gps, (deletePOI 7 stateC).state.cacheGallery = some (gp, gps) →
      gp ≠ 7 ∧ ∀ ph ∈ gps, ph.poi_id ≠ 7) ∧
    (∀ ph ∈ stateC.poi_photos, ph.poi_id = 7 →
      ph.storage_url ∉ (deletePOI 7 stateC).state.objectStore) :=
  deletePOI_removes_all_traces 7 stateC wfState_stateC (by decide)

theorem uploadPhoto_metadata_failure_compensates_witness :
    NetCall.removeBinary "p2" ∈ (uploadPhoto 7 "p2" none true stateC).calls ∧
    (uploadPhoto 7 "p2" none true stateC).err =
      some CoreError.WriteRejected ∧
    "p2" ∉ (uploadPhoto 7 "p2" none true stateC).state.objectStore ∧
    (uploadPhoto 7 "p2" none true stateC).state.poi_photos =
      stateC.poi_photos ∧
    (uploadPhoto 7 "p2" none true stateC).state.cacheGallery =
      stateC.cacheGallery ∧
    ∀ gp gps,
      (uploadPhoto 7 "p2" none true stateC).state.cacheGallery =
        some (gp, gps) →
      ∀ ph ∈ gps,
        ph ∈ (uploadPhoto 7 "p2" none true stateC).state.poi_photos :=
  uploadPhoto_metadata_failure_compensates 7 "p2" none stateC wfState_stateC

theorem deletePhoto_hero_no_promotion_witness :
    (deletePhoto photoX.id stateC).err = none ∧
    ∀ ph ∈ (loadPhotos photoX.poi_id (deletePhoto photoX.id stateC).state).2,
      ph.is_hero = false :=
  deletePhoto_hero_no_promotion stateC photoX singleHero_stateC
    (List.mem_singleton_self _) rfl
